import Mathlib

/-!
Verification of the schedule-bot core (`src/main.py`) against its
natural-language specification.  The Python code is shallowly embedded:
HTTP traffic, the Redis pipeline and the Telegram transport are modelled
as explicit oracles passed in as function arguments, exceptions become
`Except`/`Option` values, and wall-clock time becomes a `Nat` of
milliseconds (for the queue) or seconds (for the cache).
-/

namespace Asubot

/-! ## Data model

Lesson records as consumed by `TelegramBot.format_schedule`.  Dates are the
upstream `YYYYMMDD` strings and times are `HH:MM` strings; both are compared
with Python string comparison, which the Lean `String` order mirrors
(lexicographic on characters). -/

/-- One entry of a record's `lessonGroups` list (`group_info['lessonGroup']`). -/
structure LessonGroup where
  groupId : Nat
  groupCode : String
deriving DecidableEq

/-- One record of `data['schedule']['records']`, restricted to the fields the
code reads. -/
structure Lesson where
  lessonDate : String
  lessonTimeStart : String
  lessonTimeEnd : String
  lessonNum : String
  subjectTitle : String
  lessonSubjectType : String
  lessonWeek : String
  lessonGroups : List LessonGroup
  lessonLecturers : List String
  roomTitle : String
  buildingCode : String
  buildingAddress : String
  lessonCommentary : String
deriving DecidableEq

/-- The dictionary handed to `format_schedule`: the adapter's payload
(`hasSchedule` models the presence of the `schedule` key, `records` its
`records` list), the echoed request `url` added by `get_schedule`, and the
`requested_group` key optionally added by the caller (line 1605). -/
structure ScheduleData where
  hasSchedule : Bool
  records : List Lesson
  url : Option String
  requested_group : Option LessonGroup
deriving DecidableEq

/-! ## Remote Schedule Source Adapter (`ASUApi.get_schedule`)

The HTTP layer is an oracle `server : String → Option String → HttpResp`
mapping (url, optional `date` parameter) to an outcome.  The constant query
parameters (`file=list.json`, `api_token`) are the same on every request and
are not part of the request trace.  A raised exception in `session.get` or
in reading the body is `transportErr`; a JSON body that fails to parse is
`resp status none`. -/

/-- Outcome of one HTTP request: a transport-level exception, or a response
with a status code and an optionally parseable JSON body
`(hasSchedule, records)`. -/
inductive HttpResp where
  | transportErr
  | resp (status : Nat) (body : Option (Bool × List Lesson))
deriving DecidableEq

/-- `s.rstrip(c)` — drop trailing copies of `c`. -/
def rstrip (s : String) (c : Char) : String :=
  String.mk ((s.toList.reverse.dropWhile (· = c)).reverse)

/-- `s.split('/')[-1]` — the last `/`-separated segment. -/
def lastSegment (s : String) : String :=
  (s.splitOn "/").getLastD ""

/-- URL construction of `ASUApi.get_schedule` (lines 1033–1039): lecturer
paths are routed under `/timetable/lecturers/15/65/<id>/`, group paths under
`/timetable/students/15/<path>`. -/
def buildUrl (base path : String) : String :=
  if path.startsWith "lecturers/" then
    rstrip base '/' ++ "/timetable/lecturers/15/65/" ++ lastSegment path ++ "/"
  else
    rstrip base '/' ++ "/timetable/students/15/" ++ path

/-- `'-' in date` — how the code recognises a date-range parameter. -/
def containsDash (d : String) : Bool :=
  d.toList.contains '-'

/-- Truthiness of `'schedule' in data and data['schedule'].get('records', [])`. -/
def hasRecords (body : Bool × List Lesson) : Bool :=
  body.1 && !body.2.isEmpty

/-- Control flow of `ASUApi.get_schedule` (lines 1041–1078) as a function of
the response to the first request (`first`) and the response the server
would give to the fallback request without the date parameter (`retryResp`,
consulted only when the fallback is actually issued).  Returns the Python
return value (`none` models `return None`) together with the trace of HTTP
requests issued, each as (url, optional date parameter).  On a 200 response
whose payload has no records, a query whose date contains a dash is retried
exactly once with the `date` parameter removed; the retry's status code is
not checked (the code only calls `.json()` on it), and any exception there
is caught by the surrounding `except`, yielding `None`. -/
def scheduleOutcome (url : String) (date : Option String)
    (first retryResp : HttpResp) :
    Option ScheduleData × List (String × Option String) :=
  match first with
  | .transportErr => (none, [(url, date)])
  | .resp status body =>
    if status = 200 then
      match body with
      | none => (none, [(url, date)])
      | some data =>
        if hasRecords data then
          (some ⟨data.1, data.2, some url, none⟩, [(url, date)])
        else
          match date with
          | some d =>
            if containsDash d then
              match retryResp with
              | .transportErr => (none, [(url, date), (url, none)])
              | .resp _ retryBody =>
                match retryBody with
                | none => (none, [(url, date), (url, none)])
                | some rdata =>
                  if hasRecords rdata then
                    (some ⟨rdata.1, rdata.2, some url, none⟩,
                      [(url, date), (url, none)])
                  else (none, [(url, date), (url, none)])
            else (none, [(url, date)])
          | none => (none, [(url, date)])
    else (none, [(url, date)])

/-- `ASUApi.get_schedule` (lines 1023–1078): build the URL from the path and
run the fetch logic against the HTTP oracle.  The oracle is a pure function,
so sampling the fallback response up front is observationally identical to
issuing it lazily; the returned trace records which requests the code
actually issues. -/
def ASUApi.get_schedule (base path : String) (date : Option String)
    (server : String → Option String → HttpResp) :
    Option ScheduleData × List (String × Option String) :=
  scheduleOutcome (buildUrl base path) date
    (server (buildUrl base path) date) (server (buildUrl base path) none)

/-! ## Delivery queue drain loop (`TelegramBot._process_message_queue`)

Lines 1180–1197: the loop pulls one `(message, chat_id)` from
`self.message_queue`, calls `bot.send_message`, and — only if that call
returned normally — executes `await asyncio.sleep(0.05)` before the next
iteration.  When `send_message` raises, the exception skips the sleep (the
`finally` only runs `task_done`), is caught by the outer `except`, and the
loop immediately pulls the next item.  We model a burst of already-queued
items as a list of send outcomes (`true` = send succeeded, `false` = send
raised), take sends as instantaneous, and let the modelled clock (in
milliseconds) advance only by the sleeps the code executes; waiting on an
empty queue could only increase gaps further. -/

/-- Clock positions of the successive `send_message` calls, paired with each
call's outcome.  After a successful send the clock advances by the 50 ms
sleep; after a failed send it does not. -/
def timeline (t0 : Nat) : List Bool → List (Nat × Bool)
  | [] => []
  | ok :: rest => (t0, ok) :: timeline (if ok then t0 + 50 else t0) rest

/-- Just the send times of a drained burst. -/
def queueSendTimes (t0 : Nat) (outcomes : List Bool) : List Nat :=
  (timeline t0 outcomes).map (·.1)

/-! ## Schedule normalisation (`TelegramBot.format_schedule`, lines 2390–2527)

The formatting function first resolves the display subject (three-level
fallback: explicit `requested_group`, else inference from the echoed URL,
else nothing), then filters records to the resolved group when the subject
is a group, groups them by `lessonDate` (a Python dict in insertion order),
iterates the dates in sorted order and sorts each date's lessons by
`lessonTimeStart` before rendering.  `formatLayout` below is exactly the
date-grouped, filtered, sorted structure the rendering loop walks; the
rendered text lists precisely the lessons of this layout in this order. -/

/-- `sub in s` on Python strings: substring containment. -/
def strContains (s sub : String) : Bool :=
  decide (sub.toList <:+: s.toList)

/-- `[g['lessonGroup']['groupCode'] for g in lesson['lessonGroups']]`. -/
def lessonGroupCodes (l : Lesson) : List String :=
  l.lessonGroups.map (·.groupCode)

/-- The double loop of lines 2421–2430: the first group entry of the first
record whose `groupId` printed as a string equals the id extracted from the
URL. -/
def findGroupForUrlId (records : List Lesson) (gid : String) : Option LessonGroup :=
  records.findSome? (fun l => l.lessonGroups.find? (fun g => toString g.groupId == gid))

/-- Subject resolution of lines 2398–2430, reduced to what the filter uses:
`some groupCode` exactly when the code sets `is_group_schedule = True`
together with `target_group = groupCode`; `none` when the subject is a
lecturer (URL under `lecturers`) or could not be resolved. -/
def resolveTarget (d : ScheduleData) : Option String :=
  match d.requested_group with
  | some g => some g.groupCode
  | none =>
    match d.url with
    | some u =>
      if strContains u "lecturers" then none
      else (findGroupForUrlId d.records (rstrip (lastSegment u) '/')).map (·.groupCode)
    | none => none

/-- The per-record guard of lines 2437–2441: when a target group is
resolved, only records whose group list contains it survive (`continue`
otherwise); with no target every record survives. -/
def passesFilter (target : Option String) (l : Lesson) : Bool :=
  match target with
  | some tg => (lessonGroupCodes l).contains tg
  | none => true

/-- `lessons_by_date[date].append(lesson)` with dict-insertion-order keys
(lines 2443–2446). -/
def addLesson (acc : List (String × List Lesson)) (l : Lesson) :
    List (String × List Lesson) :=
  match acc with
  | [] => [(l.lessonDate, [l])]
  | (dk, ls) :: rest =>
    if dk = l.lessonDate then (dk, ls ++ [l]) :: rest
    else (dk, ls) :: addLesson rest l

/-- The grouping loop of lines 2436–2446. -/
def groupLoop (target : Option String) :
    List Lesson → List (String × List Lesson) → List (String × List Lesson)
  | [], acc => acc
  | l :: rest, acc =>
    if passesFilter target l then groupLoop target rest (addLesson acc l)
    else groupLoop target rest acc

/-- The `lessons_by_date` dict as an insertion-ordered association list. -/
def lessons_by_date (d : ScheduleData) : List (String × List Lesson) :=
  groupLoop (resolveTarget d) d.records []

/-- Key order of `sorted(lessons_by_date.items())`: Python tuple comparison,
which on distinct keys is the string order of the dates.  Stated on the
character lists; by `String.le_iff_toList_le` this is exactly the `String`
order, but unlike `String.ltb` it evaluates inside the kernel. -/
def dateLe (p q : String × List Lesson) : Prop := p.1.toList ≤ q.1.toList

/-- Order of `lessons.sort(key=lambda x: x['lessonTimeStart'])`, again as the
string order via character lists. -/
def startLe (a b : Lesson) : Prop :=
  a.lessonTimeStart.toList ≤ b.lessonTimeStart.toList

instance : DecidableRel dateLe :=
  fun p q => inferInstanceAs (Decidable (p.1.toList ≤ q.1.toList))

instance : DecidableRel startLe :=
  fun a b => inferInstanceAs (Decidable (a.lessonTimeStart.toList ≤ b.lessonTimeStart.toList))

instance : IsTotal (String × List Lesson) dateLe :=
  ⟨fun a b => le_total a.1.toList b.1.toList⟩

instance : IsTrans (String × List Lesson) dateLe :=
  ⟨fun _ _ _ hab hbc => le_trans hab hbc⟩

instance : IsTotal Lesson startLe :=
  ⟨fun a b => le_total a.lessonTimeStart.toList b.lessonTimeStart.toList⟩

instance : IsTrans Lesson startLe :=
  ⟨fun _ _ _ hab hbc => le_trans hab hbc⟩

/-- The structure the rendering loop of lines 2465–2521 walks: date groups
in sorted key order, each date's lessons sorted by start time.  Python's
`sort`/`sorted` are stable, as is insertion sort. -/
def formatLayout (d : ScheduleData) : List (String × List Lesson) :=
  (List.insertionSort dateLe (lessons_by_date d)).map
    (fun p => (p.1, List.insertionSort startLe p.2))

/-- A concrete lesson of group `G1` (earliest slot). -/
def lessonG1 : Lesson :=
  ⟨"20240101", "08:00", "09:30", "1", "A", "лек.", "", [⟨10, "G1"⟩], [], "", "", "", ""⟩

/-- A concrete lesson of group `G2` only. -/
def lessonG2 : Lesson :=
  ⟨"20240101", "10:00", "11:30", "2", "B", "пр.з.", "", [⟨11, "G2"⟩], [], "", "", "", ""⟩

/-- A concrete lesson of group `G1`, same day, later start. -/
def lessonG1Late : Lesson :=
  ⟨"20240101", "12:00", "13:30", "3", "C", "лаб.", "", [⟨10, "G1"⟩, ⟨11, "G2"⟩], [], "", "", "", ""⟩

/-- A concrete lesson of group `G1` on the next day. -/
def lessonG1NextDay : Lesson :=
  ⟨"20240102", "09:40", "11:10", "2", "D", "лек.", "", [⟨10, "G1"⟩], [], "", "", "", ""⟩

/-- A concrete group-subject payload (explicit `requested_group`). -/
def sampleGroupData : ScheduleData :=
  ⟨true, [lessonG1NextDay, lessonG1Late, lessonG1, lessonG2], none, some ⟨10, "G1"⟩⟩

/-- A concrete lecturer-subject payload (URL under `lecturers`). -/
def sampleLecturerData : ScheduleData :=
  ⟨true, [lessonG2, lessonG1], some "http://asu/timetable/lecturers/15/65/7/", none⟩

/-! ## Rendering (`format_schedule`, lines 2432–2527)

The full message text.  The lesson-type codes and weekday names go through
the fixed lookup tables of lines 2448–2463; the week-parity footer depends
on `datetime.now().isocalendar()[1]`, passed in here as `isoWeekNum`.  The
`db.get_lecturer_by_id` lookup of the lecturer branch is the oracle
`lecturerName`.  `strptime` failure on a malformed date string is not
modelled (field parsing defaults to 0); no claim concerns malformed dates. -/

/-- `lesson_types.get(t, t or 'Занятие')` (lines 2459–2463, 2481). -/
def lessonTypeLabel (s : String) : String :=
  if s = "лек." then "Лекция"
  else if s = "пр.з." then "Практика"
  else if s = "лаб." then "Лабораторная"
  else if s = "" then "Занятие"
  else s

/-- `lesson.get('lessonWeek', '').replace('Красная', '🔴').replace('Синяя', '🔵')`. -/
def weekLabel (s : String) : String :=
  (s.replace "Красная" "🔴").replace "Синяя" "🔵"

/-- `', '.join(xs)`. -/
def joinComma (xs : List String) : String :=
  String.intercalate ", " xs

/-- Location block of lines 2501–2512. -/
def lessonLocation (l : Lesson) : String :=
  if l.roomTitle ≠ "" && l.buildingCode ≠ "" then
    "ауд. " ++ l.roomTitle ++ ", корпус " ++ l.buildingCode ++
      (if l.buildingAddress = "" then "" else " (" ++ l.buildingAddress ++ ")")
  else if l.buildingAddress ≠ "" then l.buildingAddress
  else "Место не указано"

/-- One lesson's text block (lines 2472–2521). -/
def renderLesson (isGroup : Bool) (l : Lesson) : String :=
  (if l.lessonNum = "" then "" else "<b>" ++ l.lessonNum ++ " пара</b>\n") ++
  "🕒 <b>" ++ l.lessonTimeStart ++ "-" ++ l.lessonTimeEnd ++ "</b> | " ++
    l.subjectTitle ++ "\n" ++
  "📝 " ++ lessonTypeLabel l.lessonSubjectType ++
    (if weekLabel l.lessonWeek = "" then "" else " | " ++ weekLabel l.lessonWeek) ++ "\n" ++
  (if l.lessonLecturers.isEmpty then "" else "👨‍🏫 " ++ joinComma l.lessonLecturers ++ "\n") ++
  (if isGroup then "" else "Группы: " ++ joinComma (lessonGroupCodes l) ++ "\n") ++
  "📍 " ++ lessonLocation l ++ "\n" ++
  (if l.lessonCommentary = "" then "" else "💬 " ++ l.lessonCommentary ++ "\n") ++
  "\n"

/-- `date_obj.strftime('%d.%m.%Y')` for a `YYYYMMDD` string. -/
def fmtHeaderDate (s : String) : String :=
  s.drop 6 ++ "." ++ (s.drop 4).take 2 ++ "." ++ s.take 4

/-- Gregorian leap year, as `datetime` uses. -/
def isLeap (y : Nat) : Bool :=
  (y % 4 = 0 && y % 100 ≠ 0) || y % 400 = 0

/-- Month lengths of a year. -/
def monthLengths (leap : Bool) : List Nat :=
  [31, if leap then 29 else 28, 31, 30, 31, 30, 31, 31, 30, 31, 30, 31]

/-- Proleptic Gregorian ordinal of a date (0001-01-01 has ordinal 1), the
quantity behind `datetime.weekday`. -/
def dateOrdinal (y m d : Nat) : Nat :=
  (y - 1) * 365 + (y - 1) / 4 - (y - 1) / 100 + (y - 1) / 400 +
    ((monthLengths (isLeap y)).take (m - 1)).sum + d

/-- `date_obj.strftime('%A')`: 0001-01-01 was a Monday. -/
def weekdayEn (y m d : Nat) : String :=
  ["Monday", "Tuesday", "Wednesday", "Thursday", "Friday", "Saturday",
    "Sunday"].getD ((dateOrdinal y m d - 1) % 7) "Monday"

/-- `weekdays.get(name, name)` of lines 2448–2456, after parsing the
`YYYYMMDD` string. -/
def weekdayRuOf (s : String) : String :=
  let y := (s.take 4).toNat?.getD 0
  let m := ((s.drop 4).take 2).toNat?.getD 0
  let d := (s.drop 6).toNat?.getD 0
  let w := weekdayEn y m d
  if w = "Monday" then "Понедельник"
  else if w = "Tuesday" then "Вторник"
  else if w = "Wednesday" then "Среда"
  else if w = "Thursday" then "Четверг"
  else if w = "Friday" then "Пятница"
  else if w = "Saturday" then "Суббота"
  else if w = "Sunday" then "Воскресенье"
  else w

/-- One date section (lines 2465–2471 plus the lesson loop). -/
def renderDay (isGroup : Bool) (p : String × List Lesson) : String :=
  "<b>📆 " ++ fmtHeaderDate p.1 ++ " (" ++ weekdayRuOf p.1 ++ ")</b>\n" ++
  "━━━━━━━━━━━━━━━━━━━━━\n" ++
  String.join (p.2.map (renderLesson isGroup))

/-- The `schedule_type` header text of lines 2398–2430: explicit
`requested_group` wins, else the lecturer name looked up from the URL's
second-to-last segment, else the group inferred from the URL's last
segment. -/
def scheduleHeader (d : ScheduleData) (lecturerName : String → Option String) :
    String :=
  match d.requested_group with
  | some g => "группы " ++ g.groupCode
  | none =>
    match d.url with
    | some u =>
      if strContains u "lecturers" then
        match lecturerName ((u.splitOn "/").getD ((u.splitOn "/").length - 2) "") with
        | some nm => "преподавателя " ++ nm
        | none => ""
      else
        match findGroupForUrlId d.records (rstrip (lastSegment u) '/') with
        | some g => "группы " ++ g.groupCode
        | none => ""
    | none => ""

/-- `TelegramBot.format_schedule` (lines 2390–2527): guard, header, one
section per date group of the layout, week-parity footer. -/
def format_schedule (d : ScheduleData) (lecturerName : String → Option String)
    (isoWeekNum : Nat) : String :=
  if !d.hasSchedule then "Расписание отсутствует"
  else if d.records.isEmpty then "Расписание отсутствует"
  else
    "<b>📅 РАСПИСАНИЕ " ++ scheduleHeader d lecturerName ++ "</b>\n\n" ++
    String.join ((formatLayout d).map (renderDay (resolveTarget d).isSome)) ++
    "\n<i>Текущая неделя: " ++
      (if isoWeekNum % 2 = 1 then "🔴 Красная" else "🔵 Синяя") ++ "</i>"

/-! ## Notification tick and broadcast (`check_notifications` lines
2808–2845, `process_broadcast` lines 3135–3196)

Both are modelled as the trace of externally visible actions they perform.
`enqueueMsg` is `self.message_queue.put` (the shared delivery queue, fed
only by the `send_message` helper of line 2683); `sendDirect`/`sendFail`
are a direct `context.bot.send_message` call that returns / raises
(failures are logged with the recipient's `tg_id` and the loop continues);
`statusEdit` covers the admin status messages of the broadcast;
`sleepMs` is an executed `asyncio.sleep`. -/

inductive BotAction where
  | enqueueMsg (chatId : Nat) (body : String)
  | sendDirect (chatId : Nat) (body : String)
  | sendFail (chatId : Nat)
  | statusEdit (text : String)
  | sleepMs (ms : Nat)

/-- Is this action an enqueue into the shared delivery queue? -/
def isEnqueue : BotAction → Bool
  | .enqueueMsg _ _ => true
  | _ => false

/-- Is this action a direct outbound-channel call? -/
def isDirectSend : BotAction → Bool
  | .sendDirect _ _ => true
  | _ => false

/-- Recipients attempted (delivered or failed), in order. -/
def attempts (tr : List BotAction) : List Nat :=
  tr.filterMap (fun a => match a with
    | .sendDirect i _ => some i
    | .sendFail i => some i
    | _ => none)

/-- One row of `db.get_users_for_notification` (lines 782–810): the columns
the tick reads. -/
structure NotifUser where
  tg_id : Nat
  groupId : Nat
  groupCode : String
deriving DecidableEq

/-- `TelegramBot.check_notifications` (lines 2808–2845): for each matched
subscriber, fetch tomorrow's schedule via `ASUApi.get_schedule`
(`str(user['groupId'])` as the path), build the message (the no-records
branch explicitly says no classes are scheduled), and send it directly via
`context.bot.send_message`; a raised send is caught per user, logged with
the user's `tg_id`, and the loop continues with the remaining users. -/
def notifMessage (base : String) (server : String → Option String → HttpResp)
    (lecturerName : String → Option String) (tomorrow : String)
    (isoWeekNum : Nat) (u : NotifUser) : String :=
  match (ASUApi.get_schedule base (toString u.groupId) (some tomorrow) server).1 with
  | some s =>
    if s.hasSchedule then
      "📅 Расписание на завтра:\n\n" ++ format_schedule s lecturerName isoWeekNum
    else "📅 На завтра (" ++ tomorrow ++ ") занятий нет"
  | none => "📅 На завтра (" ++ tomorrow ++ ") занятий нет"

/-- The send attempt for one subscriber: a direct send of the built message,
or a caught-and-logged failure. -/
def notifyActions (base : String) (server : String → Option String → HttpResp)
    (lecturerName : String → Option String) (tomorrow : String)
    (isoWeekNum : Nat) (sendOk : Nat → Bool) (u : NotifUser) : List BotAction :=
  if sendOk u.tg_id then
    [.sendDirect u.tg_id (notifMessage base server lecturerName tomorrow isoWeekNum u)]
  else [.sendFail u.tg_id]

/-- The per-user loop of `check_notifications`: one `notifyActions` block per
matched subscriber, later subscribers processed regardless of earlier
failures. -/
def check_notifications (base : String)
    (server : String → Option String → HttpResp)
    (lecturerName : String → Option String) (tomorrow : String)
    (isoWeekNum : Nat) (sendOk : Nat → Bool) : List NotifUser → List BotAction
  | [] => []
  | u :: rest =>
    notifyActions base server lecturerName tomorrow isoWeekNum sendOk u ++
      check_notifications base server lecturerName tomorrow isoWeekNum sendOk rest

/-- One row of `db.get_all_users` (`SELECT * FROM users`), restricted to the
fields `process_broadcast` reads; `is_banned` is the truthiness of
`u.get('is_banned')`. -/
structure DbUser where
  tg_id : Nat
  is_banned : Bool
deriving DecidableEq

/-- The broadcast loop of lines 3155–3176, carrying the success and failure
counters: a successful direct send increments `success_count`, edits the
status message every 10 successes, and sleeps 50 ms; a raised send is
caught, logged, and increments `fail_count` with no sleep. -/
def broadcastGo (text : String) (sendOk : Nat → Bool) (total : Nat) :
    List DbUser → Nat → Nat → List BotAction × Nat × Nat
  | [], s, f => ([], s, f)
  | u :: rest, s, f =>
    if sendOk u.tg_id then
      let progress :=
        if (s + 1) % 10 = 0 then
          [BotAction.statusEdit ("📨 Отправлено: " ++ toString (s + 1) ++ "/" ++
            toString total ++ "\n❌ Ошибок: " ++ toString f)]
        else []
      let next := broadcastGo text sendOk total rest (s + 1) f
      (BotAction.sendDirect u.tg_id text :: (progress ++ BotAction.sleepMs 50 :: next.1),
        next.2.1, next.2.2)
    else
      let next := broadcastGo text sendOk total rest s (f + 1)
      (BotAction.sendFail u.tg_id :: next.1, next.2.1, next.2.2)

/-- `TelegramBot.process_broadcast` (lines 3135–3196): filter the stored
users to the non-banned ones, report the recipient total, send the body to
each directly (through `broadcastGo`), and edit the final report.  Returns
the action trace, `success_count`, `fail_count` and `total_users`. -/
def process_broadcast (allUsers : List DbUser) (text : String)
    (sendOk : Nat → Bool) : List BotAction × Nat × Nat × Nat :=
  let users := allUsers.filter (fun u => !u.is_banned)
  let total := users.length
  let res := broadcastGo text sendOk total users 0 0
  (BotAction.statusEdit ("📨 Начинаю рассылку...\nВсего получателей: " ++ toString total) ::
    res.1 ++ [BotAction.statusEdit ("📨 Рассылка завершена\n\n✅ Успешно отправлено: " ++
      toString res.2.1 ++ "\n❌ Ошибок: " ++ toString res.2.2 ++
      "\n📊 Всего получателей: " ++ toString total)],
    res.2.1, res.2.2, total)

/-- Which recipient, if any, an action represents an attempt for. -/
def pickAttempt : BotAction → Option Nat
  | .sendDirect i _ => some i
  | .sendFail i => some i
  | _ => none

/-! ## Process-local schedule cache (`TelegramBot.get_cached_schedule`,
lines 2656–2668, with fields from `__init__` lines 1147–1150)

`get_cached_schedule` is decorated with `functools.lru_cache(maxsize=100)`,
so every return value is memoized under the `(group_id, date)` argument
pair; `memo` models that table (the `maxsize` eviction is not modelled — the
claim concerns two calls with one key).  The body keeps its own
`cache_last_update` timestamp dict with a 5-minute (300 s) timeout and reads
`schedule_cache`, a dict that is initialised empty and never written
anywhere in the file.  The body calls `self.api.get_schedule(group_id,
date)`; the model counts that as one adapter invocation.  (At runtime the
call lacks an `await`, so it builds a coroutine object — always truthy —
without sending the HTTP request; counting it as an invocation is the
conservative reading for the at-most-once claim.)  Time is a `Nat` of
seconds; Python's negative-timedelta comparison agrees with truncated `Nat`
subtraction here, since both sides are below the timeout either way. -/

structure CacheState where
  memo : List ((String × String) × Option ScheduleData)
  last_update : List ((String × String) × Nat)
  schedule_cache : List ((String × String) × ScheduleData)

/-- Result of one `get_cached_schedule` call: the returned value, the state
afterwards, and how many adapter invocations the call performed. -/
structure CacheCallResult where
  value : Option ScheduleData
  state : CacheState
  apiCalls : Nat

/-- The miss path of lines 2664–2668: call the adapter, record the fetch
time only when the result is truthy, and memoize the return value. -/
def cacheFetchBranch (fetch : String → String → Option ScheduleData)
    (st : CacheState) (now : Nat) (key : String × String) : CacheCallResult :=
  let s := fetch key.1 key.2
  ⟨s,
    { memo := (key, s) :: st.memo,
      last_update := if s.isSome then (key, now) :: st.last_update else st.last_update,
      schedule_cache := st.schedule_cache },
    1⟩

/-- `get_cached_schedule` (lines 2656–2668): an `lru_cache` hit returns the
memoized value without running the body; otherwise, a fresh
`cache_last_update` stamp returns `schedule_cache.get(key)` (and memoizes
it); otherwise the adapter is invoked. -/
def get_cached_schedule (fetch : String → String → Option ScheduleData)
    (st : CacheState) (now : Nat) (group_id date : String) : CacheCallResult :=
  let key := (group_id, date)
  match st.memo.lookup key with
  | some v => ⟨v, st, 0⟩
  | none =>
    match st.last_update.lookup key with
    | some t =>
      if now - t < 300 then
        let v := st.schedule_cache.lookup key
        ⟨v, { st with memo := (key, v) :: st.memo }, 0⟩
      else cacheFetchBranch fetch st now key
    | none => cacheFetchBranch fetch st now key

/-! ## Shared (Tier 2) cache (`RedisCache`, lines 1080–1113)

The Redis pipeline is an oracle returning `Except`: `.error` models any
exception raised while talking to Redis (connection, timeout, or a failed
`loads` during the result comprehension — all inside the `try`).  Each
method catches every exception, logs it, and returns a plain value, so the
模型 functions return plain values with the log line (if any) alongside. -/

/-- `[loads(v) if v else None for v in values]` (line 1110): sequential, and
a raised `loads` aborts the whole comprehension. -/
def loadsList {α : Type} (loads : String → Except String α) :
    List (Option String) → Except String (List (Option α))
  | [] => .ok []
  | none :: rest =>
    match loadsList loads rest with
    | .ok xs => .ok (none :: xs)
    | .error e => .error e
  | some v :: rest =>
    match loads v with
    | .error e => .error e
    | .ok x =>
      match loadsList loads rest with
      | .ok xs => .ok (some x :: xs)
      | .error e => .error e

/-- `RedisCache.get_many` (lines 1103–1113): pipeline all the GETs, execute,
decode; any exception is logged and the call returns `[None] * len(keys)`. -/
def RedisCache.get_many {α : Type}
    (execGet : List String → Except String (List (Option String)))
    (loads : String → Except String α) (keys : List String) : List (Option α) :=
  match execGet keys with
  | .error _ => List.replicate keys.length none
  | .ok vs =>
    match loadsList loads vs with
    | .ok r => r
    | .error _ => List.replicate keys.length none

/-- `RedisCache.set_many` (lines 1093–1101): pipeline all the SETs with
`ex = ttl or default_ttl` (300 s), execute; any exception is logged and the
call simply returns.  The returned `Option String` is the logged error
line — the Python function itself always returns `None` and never raises. -/
def RedisCache.set_many {α : Type}
    (execSet : List (String × String × Nat) → Except String Unit)
    (dumps : α → String) (mapping : List (String × α)) (ttl : Option Nat) :
    Option String :=
  match execSet (mapping.map (fun kv => (kv.1, dumps kv.2, ttl.getD 300))) with
  | .ok _ => none
  | .error e => some ("Redis error in set_many: " ++ e)

/-! ## Theorems -/

/-- The fetch logic never issues more than two requests: no retry loop. -/
lemma scheduleOutcome_trace_length (url : String) (date : Option String)
    (first retryResp : HttpResp) :
    ((scheduleOutcome url date first retryResp).2).length ≤ 2 := by
  unfold scheduleOutcome
  rcases first with _ | ⟨status, _ | data⟩ <;>
    rcases retryResp with _ | ⟨s2, _ | rdata⟩ <;>
    rcases date with _ | d
  all_goals repeat' split
  all_goals simp

/-- A 200 first response with no records on a dashed date triggers exactly
the one fallback request without the date parameter. -/
lemma scheduleOutcome_fallback (url d : String) (data : Bool × List Lesson)
    (retryResp : HttpResp) (hdash : containsDash d = true)
    (hempty : hasRecords data = false) :
    (scheduleOutcome url (some d) (.resp 200 (some data)) retryResp).2 =
      [(url, some d), (url, none)] := by
  rcases retryResp with _ | ⟨s2, _ | rdata⟩
  all_goals simp [scheduleOutcome, hempty, hdash]
  all_goals repeat' split
  all_goals rfl

/-- A query whose date has no dash never issues a second request. -/
lemma scheduleOutcome_single_date (url d : String) (first retryResp : HttpResp)
    (hdash : containsDash d = false) :
    (scheduleOutcome url (some d) first retryResp).2 = [(url, some d)] := by
  unfold scheduleOutcome
  rcases first with _ | ⟨status, _ | data⟩
  all_goals repeat' split
  all_goals simp_all

/-- C1: For every schedule query whose date specification is a range, if the
first upstream response contains zero records, the adapter issues exactly one
fallback request with the date parameter removed and performs no further
retries (the trace never exceeds two requests); for every single-date query,
no fallback request is ever issued regardless of the response. -/
theorem get_schedule_fallback_once (base path d : String)
    (server : String → Option String → HttpResp) :
    ((ASUApi.get_schedule base path (some d) server).2).length ≤ 2 ∧
    (∀ data, containsDash d = true →
      server (buildUrl base path) (some d) = .resp 200 (some data) →
      hasRecords data = false →
      (ASUApi.get_schedule base path (some d) server).2 =
        [(buildUrl base path, some d), (buildUrl base path, none)]) ∧
    (containsDash d = false →
      (ASUApi.get_schedule base path (some d) server).2 =
        [(buildUrl base path, some d)]) := by
  refine ⟨scheduleOutcome_trace_length _ _ _ _, ?_, ?_⟩
  · intro data hdash hsrv hempty
    unfold ASUApi.get_schedule
    rw [hsrv]
    exact scheduleOutcome_fallback _ _ _ _ hdash hempty
  · intro hdash
    exact scheduleOutcome_single_date _ _ _ _ hdash

/-- Witness for C1 at a concrete range query and a concrete single-date
query against a server that always answers 200 with an empty record list. -/
theorem get_schedule_fallback_once_witness :
    (ASUApi.get_schedule "http://asu" "123" (some "20240101-20240107")
        (fun _ _ => .resp 200 (some (true, [])))).2 =
      [(buildUrl "http://asu" "123", some "20240101-20240107"),
        (buildUrl "http://asu" "123", none)] ∧
    (ASUApi.get_schedule "http://asu" "123" (some "20240101")
        (fun _ _ => .resp 200 (some (true, [])))).2 =
      [(buildUrl "http://asu" "123", some "20240101")] :=
  ⟨(get_schedule_fallback_once "http://asu" "123" "20240101-20240107"
      (fun _ _ => .resp 200 (some (true, [])))).2.1 (true, [])
      (by decide) rfl (by decide),
    (get_schedule_fallback_once "http://asu" "123" "20240101"
      (fun _ _ => .resp 200 (some (true, [])))).2.2 (by decide)⟩

/-- C2 counterexample: the claim asserts that an HTTP-200 empty-list outcome
is a distinguishable Empty value and that errors carry reason codes
(`transport`, `http_status:<code>`, `parse`) distinguishable from Empty.  In
the code every non-data outcome is literally `return None`: at the concrete
query below, a 200 response with an empty record list, a transport error, a
500 status and an unparseable payload all produce the identical value
`none`, so the Empty outcome is not distinguishable from any Error outcome
and no reason code exists in the return value. -/
theorem get_schedule_outcomes_counterexample :
    (ASUApi.get_schedule "http://asu" "123" (some "20240101")
        (fun _ _ => .resp 200 (some (true, [])))).1 = none ∧
    (ASUApi.get_schedule "http://asu" "123" (some "20240101")
        (fun _ _ => .transportErr)).1 = none ∧
    (ASUApi.get_schedule "http://asu" "123" (some "20240101")
        (fun _ _ => .resp 500 (some (true,
          [⟨"20240101", "08:00", "09:30", "1", "T", "лек.", "", [], [],
            "", "", "", ""⟩])))).1 = none ∧
    (ASUApi.get_schedule "http://asu" "123" (some "20240101")
        (fun _ _ => .resp 200 none)).1 = none := by
  refine ⟨rfl, rfl, rfl, rfl⟩

/-- C2 amended: the adapter's return value distinguishes exactly two
outcomes, not three — either a payload whose record list is non-empty, or
the single value `none`, which covers empty record lists (also after the
fallback retry), transport errors, non-200 statuses and parse failures
alike; no reason code is carried (reason strings appear only in log
messages). -/
theorem get_schedule_two_outcomes (base path : String) (date : Option String)
    (server : String → Option String → HttpResp) :
    (ASUApi.get_schedule base path date server).1 = none ∨
    ∃ sd, (ASUApi.get_schedule base path date server).1 = some sd ∧
      sd.hasSchedule = true ∧ sd.records ≠ [] := by
  have key : ∀ (url : String) (dt : Option String) (first retryResp : HttpResp),
      (scheduleOutcome url dt first retryResp).1 = none ∨
      ∃ sd, (scheduleOutcome url dt first retryResp).1 = some sd ∧
        sd.hasSchedule = true ∧ sd.records ≠ [] := by
    intro url dt first retryResp
    unfold scheduleOutcome
    rcases first with _ | ⟨status, _ | data⟩
    · exact Or.inl rfl
    · dsimp only; split
      · exact Or.inl rfl
      · exact Or.inl rfl
    · dsimp only
      split
      · split
        · rename_i hrec
          refine Or.inr ⟨⟨data.1, data.2, some url, none⟩, rfl,
            ((Bool.and_eq_true _ _).mp hrec).1, ?_⟩
          have h2 := ((Bool.and_eq_true _ _).mp hrec).2
          simpa [List.isEmpty_iff] using h2
        · rcases dt with _ | d
          · exact Or.inl rfl
          · dsimp only
            split
            · rcases retryResp with _ | ⟨s2, _ | rdata⟩
              · exact Or.inl rfl
              · exact Or.inl rfl
              · dsimp only
                split
                · rename_i hrec2
                  refine Or.inr ⟨⟨rdata.1, rdata.2, some url, none⟩, rfl,
                    ((Bool.and_eq_true _ _).mp hrec2).1, ?_⟩
                  have h3 := ((Bool.and_eq_true _ _).mp hrec2).2
                  simpa [List.isEmpty_iff] using h3
                · exact Or.inl rfl
            · exact Or.inl rfl
      · exact Or.inl rfl
  exact key _ _ _ _

/-- C3 counterexample: the claim asserts a ≥ 50 ms gap between successive
outbound calls regardless of whether each send succeeds or fails.  Draining
a burst of two queued items whose first send fails refutes it: the failed
send skips the `asyncio.sleep(0.05)`, so the second send happens with no
enforced delay at all — the send times are [0, 0]. -/
theorem queue_spacing_counterexample :
    queueSendTimes 0 [false, true] = [0, 0] ∧
    ¬ List.Chain' (fun a b => a + 50 ≤ b) (queueSendTimes 0 [false, true]) := by
  constructor
  · rfl
  · intro h
    have h2 := List.chain'_cons.mp h
    simp only [queueSendTimes, timeline, List.map_cons, Bool.false_eq_true,
      if_false] at h2
    omega

/-- C3 amended: the minimum 50 ms inter-send spacing is enforced only after
a send that succeeds; between a failed send and the next send the loop
enforces no delay.  Formally, along the drain timeline every successful send
is followed (if at all) by a send at least 50 ms later. -/
theorem queue_spacing_after_success (t0 : Nat) (outcomes : List Bool) :
    List.Chain' (fun a b => a.2 = true → a.1 + 50 ≤ b.1)
      (timeline t0 outcomes) := by
  induction outcomes generalizing t0 with
  | nil => exact List.chain'_nil
  | cons b rest ih =>
    rw [timeline, List.chain'_cons']
    refine ⟨?_, ih _⟩
    intro p hp hb
    cases rest with
    | nil => simp [timeline] at hp
    | cons b2 rest2 =>
      simp only [timeline, List.head?_cons, Option.mem_def, Option.some.injEq] at hp
      subst hp
      subst hb
      simp

/-- Lessons collected in `addLesson acc l` are those of `acc` plus `l`. -/
lemma mem_values_addLesson (acc : List (String × List Lesson)) (l l' : Lesson) :
    (∃ p ∈ addLesson acc l, l' ∈ p.2) ↔ (∃ p ∈ acc, l' ∈ p.2) ∨ l' = l := by
  induction acc with
  | nil =>
    simp [addLesson, eq_comm]
  | cons hd rest ih =>
    obtain ⟨dk, ls⟩ := hd
    by_cases hd : dk = l.lessonDate
    · simp only [addLesson, if_pos hd]
      constructor
      · rintro ⟨p, hp, hlp⟩
        rcases List.mem_cons.mp hp with rfl | hp
        · rcases List.mem_append.mp hlp with h | h
          · exact Or.inl ⟨(dk, ls), List.mem_cons_self _ _, h⟩
          · exact Or.inr (List.mem_singleton.mp h)
        · exact Or.inl ⟨p, List.mem_cons_of_mem _ hp, hlp⟩
      · rintro (⟨p, hp, hlp⟩ | h)
        · rcases List.mem_cons.mp hp with rfl | hp
          · exact ⟨(dk, ls ++ [l]), List.mem_cons_self _ _,
              List.mem_append.mpr (Or.inl hlp)⟩
          · exact ⟨p, List.mem_cons_of_mem _ hp, hlp⟩
        · exact ⟨(dk, ls ++ [l]), List.mem_cons_self _ _,
            List.mem_append.mpr (Or.inr (List.mem_singleton.mpr h))⟩
    · simp only [addLesson, if_neg hd]
      constructor
      · rintro ⟨p, hp, hlp⟩
        rcases List.mem_cons.mp hp with rfl | hp
        · exact Or.inl ⟨(dk, ls), List.mem_cons_self _ _, hlp⟩
        · rcases ih.mp ⟨p, hp, hlp⟩ with ⟨q, hq, hlq⟩ | h
          · exact Or.inl ⟨q, List.mem_cons_of_mem _ hq, hlq⟩
          · exact Or.inr h
      · rintro (⟨p, hp, hlp⟩ | h)
        · rcases List.mem_cons.mp hp with rfl | hp
          · exact ⟨(dk, ls), List.mem_cons_self _ _, hlp⟩
          · obtain ⟨q, hq, hlq⟩ := ih.mpr (Or.inl ⟨p, hp, hlp⟩)
            exact ⟨q, List.mem_cons_of_mem _ hq, hlq⟩
        · obtain ⟨q, hq, hlq⟩ := ih.mpr (Or.inr h)
          exact ⟨q, List.mem_cons_of_mem _ hq, hlq⟩

/-- Lessons collected by the grouping loop are those of the accumulator plus
the input records that pass the filter. -/
lemma mem_values_groupLoop (target : Option String) (records : List Lesson)
    (acc : List (String × List Lesson)) (l' : Lesson) :
    (∃ p ∈ groupLoop target records acc, l' ∈ p.2) ↔
      (∃ p ∈ acc, l' ∈ p.2) ∨ (l' ∈ records ∧ passesFilter target l' = true) := by
  induction records generalizing acc with
  | nil => simp [groupLoop]
  | cons l rest ih =>
    by_cases hpass : passesFilter target l = true
    · simp only [groupLoop, if_pos hpass]
      rw [ih, mem_values_addLesson]
      constructor
      · rintro ((h | rfl) | ⟨hmem, hp⟩)
        · exact Or.inl h
        · exact Or.inr ⟨List.mem_cons_self _ _, hpass⟩
        · exact Or.inr ⟨List.mem_cons_of_mem _ hmem, hp⟩
      · rintro (h | ⟨hmem, hp⟩)
        · exact Or.inl (Or.inl h)
        · rcases List.mem_cons.mp hmem with rfl | hmem
          · exact Or.inl (Or.inr rfl)
          · exact Or.inr ⟨hmem, hp⟩
    · simp only [groupLoop, if_neg hpass]
      rw [ih]
      constructor
      · rintro (h | ⟨hmem, hp⟩)
        · exact Or.inl h
        · exact Or.inr ⟨List.mem_cons_of_mem _ hmem, hp⟩
      · rintro (h | ⟨hmem, hp⟩)
        · exact Or.inl h
        · rcases List.mem_cons.mp hmem with rfl | hmem
          · exact absurd hp hpass
          · exact Or.inr ⟨hmem, hp⟩

/-- Sorting the layout changes neither the set of date groups' lessons. -/
lemma mem_values_formatLayout (d : ScheduleData) (l' : Lesson) :
    (∃ p ∈ formatLayout d, l' ∈ p.2) ↔ (∃ p ∈ lessons_by_date d, l' ∈ p.2) := by
  unfold formatLayout
  constructor
  · rintro ⟨p, hp, hlp⟩
    obtain ⟨q, hq, rfl⟩ := List.mem_map.mp hp
    exact ⟨q, (List.mem_insertionSort dateLe).mp hq,
      (List.mem_insertionSort startLe).mp hlp⟩
  · rintro ⟨q, hq, hlq⟩
    exact ⟨(q.1, List.insertionSort startLe q.2),
      List.mem_map.mpr ⟨q, (List.mem_insertionSort dateLe).mpr hq, rfl⟩,
      (List.mem_insertionSort startLe).mpr hlq⟩

/-- Every lesson stored under a date key of the grouping dict actually has
that `lessonDate` (lines 2443–2446 insert each lesson under its own date). -/
lemma dates_addLesson (acc : List (String × List Lesson)) (l : Lesson)
    (h : ∀ p ∈ acc, ∀ x ∈ p.2, x.lessonDate = p.1) :
    ∀ p ∈ addLesson acc l, ∀ x ∈ p.2, x.lessonDate = p.1 := by
  induction acc with
  | nil =>
    intro p hp x hx
    rcases List.mem_singleton.mp hp with rfl
    rcases List.mem_singleton.mp hx with rfl
    rfl
  | cons hd rest ih =>
    obtain ⟨dk, ls⟩ := hd
    by_cases hdk : dk = l.lessonDate
    · simp only [addLesson, if_pos hdk]
      intro p hp x hx
      rcases List.mem_cons.mp hp with rfl | hp
      · rcases List.mem_append.mp hx with hx | hx
        · exact h (dk, ls) (List.mem_cons_self _ _) x hx
        · rcases List.mem_singleton.mp hx with rfl
          exact hdk.symm
      · exact h p (List.mem_cons_of_mem _ hp) x hx
    · simp only [addLesson, if_neg hdk]
      intro p hp x hx
      rcases List.mem_cons.mp hp with rfl | hp
      · exact h (dk, ls) (List.mem_cons_self _ _) x hx
      · exact ih (fun q hq => h q (List.mem_cons_of_mem _ hq)) p hp x hx

/-- The date invariant is preserved through the whole grouping loop. -/
lemma dates_groupLoop (target : Option String) (records : List Lesson)
    (acc : List (String × List Lesson))
    (h : ∀ p ∈ acc, ∀ x ∈ p.2, x.lessonDate = p.1) :
    ∀ p ∈ groupLoop target records acc, ∀ x ∈ p.2, x.lessonDate = p.1 := by
  induction records generalizing acc with
  | nil => exact h
  | cons l rest ih =>
    by_cases hpass : passesFilter target l = true
    · simp only [groupLoop, if_pos hpass]
      exact ih _ (dates_addLesson acc l h)
    · simp only [groupLoop, if_neg hpass]
      exact ih _ h

/-- C5: For every schedule produced for a group subject (a resolved target
group), every lesson appearing in the rendered layout contains the resolved
group code in its group list — lessons whose group list lacks it are
filtered out; for a lecturer subject (a `lecturers` URL and no explicit
`requested_group`), no group filter is applied and every fetched lesson is
rendered. -/
theorem format_schedule_group_filter (d : ScheduleData) :
    (∀ tg, resolveTarget d = some tg →
      ∀ p ∈ formatLayout d, ∀ l ∈ p.2, tg ∈ lessonGroupCodes l) ∧
    (∀ u, d.requested_group = none → d.url = some u →
      strContains u "lecturers" = true →
      ∀ l ∈ d.records, ∃ p ∈ formatLayout d, l ∈ p.2) := by
  constructor
  · intro tg htg p hp l hl
    have hmem := (mem_values_formatLayout d l).mp ⟨p, hp, hl⟩
    rw [lessons_by_date] at hmem
    have h2 := (mem_values_groupLoop (resolveTarget d) d.records [] _).mp hmem
    rcases h2 with ⟨q, hq, _⟩ | ⟨_, hpass⟩
    · exact absurd hq (List.not_mem_nil q)
    · rw [htg] at hpass
      simpa [passesFilter, List.contains, List.elem_iff] using hpass
  · intro u h1 h2 h3 l hl
    have htn : resolveTarget d = none := by
      rw [resolveTarget, h1, h2]
      simp [h3]
    apply (mem_values_formatLayout d l).mpr
    rw [lessons_by_date]
    apply (mem_values_groupLoop (resolveTarget d) d.records [] l).mpr
    refine Or.inr ⟨hl, ?_⟩
    rw [htn]
    rfl

/-- Witness for C5: on the concrete group payload the target resolves to
`G1`, a kept lesson's group list contains `G1`, and on the concrete lecturer
payload the foreign-group lesson is still rendered. -/
theorem format_schedule_group_filter_witness :
    resolveTarget sampleGroupData = some "G1" ∧
    ("20240101", [lessonG1, lessonG1Late]) ∈ formatLayout sampleGroupData ∧
    "G1" ∈ lessonGroupCodes lessonG1 ∧
    (∃ p ∈ formatLayout sampleLecturerData, lessonG2 ∈ p.2) := by
  refine ⟨by decide, by decide, ?_, ?_⟩
  · exact (format_schedule_group_filter sampleGroupData).1 "G1" (by decide)
      ("20240101", [lessonG1, lessonG1Late]) (by decide) lessonG1 (by decide)
  · exact (format_schedule_group_filter sampleLecturerData).2
      "http://asu/timetable/lecturers/15/65/7/" rfl rfl (by decide) lessonG2 (by decide)

/-- C6: For every raw schedule payload, the rendered layout groups lessons by
calendar date — every lesson sits in the group keyed by its own
`lessonDate` — with the date groups in ascending date order (string order of
`YYYYMMDD` dates, which coincides with chronological order), and within each
date group the lessons sorted by start time ascending. -/
theorem format_schedule_date_ordering (d : ScheduleData) :
    List.Pairwise dateLe (formatLayout d) ∧
    (∀ p ∈ formatLayout d, List.Pairwise startLe p.2) ∧
    (∀ p ∈ formatLayout d, ∀ l ∈ p.2, l.lessonDate = p.1) := by
  refine ⟨?_, ?_, ?_⟩
  · have hs := List.sorted_insertionSort dateLe (lessons_by_date d)
    unfold formatLayout
    rw [List.pairwise_map]
    exact hs.imp (fun h => h)
  · intro p hp
    obtain ⟨q, _, rfl⟩ := List.mem_map.mp hp
    exact List.sorted_insertionSort startLe q.2
  · intro p hp l hl
    obtain ⟨q, hq, rfl⟩ := List.mem_map.mp hp
    have hq2 := (List.mem_insertionSort dateLe).mp hq
    rw [lessons_by_date] at hq2
    have hl2 := (List.mem_insertionSort startLe).mp hl
    exact dates_groupLoop (resolveTarget d) d.records []
      (fun p hp => absurd hp (List.not_mem_nil p)) q hq2 l hl2

/-- Witness for C6 at the concrete group payload: its layout contains the
date group of 2024-01-01 whose lessons are listed in start-time order, the
next-day group follows it, and a contained lesson carries the group's date. -/
theorem format_schedule_date_ordering_witness :
    formatLayout sampleGroupData =
      [("20240101", [lessonG1, lessonG1Late]), ("20240102", [lessonG1NextDay])] ∧
    List.Pairwise startLe (("20240101", [lessonG1, lessonG1Late]) :
      String × List Lesson).2 ∧
    lessonG1.lessonDate = ("20240101", [lessonG1, lessonG1Late]).1 := by
  refine ⟨by decide, ?_, ?_⟩
  · exact (format_schedule_date_ordering sampleGroupData).2.1
      ("20240101", [lessonG1, lessonG1Late]) (by decide)
  · exact (format_schedule_date_ordering sampleGroupData).2.2
      ("20240101", [lessonG1, lessonG1Late]) (by decide) lessonG1 (by decide)

/-- `attempts` in terms of `pickAttempt`. -/
lemma attempts_eq_filterMap (tr : List BotAction) :
    attempts tr = tr.filterMap pickAttempt := by
  unfold attempts pickAttempt
  rfl

/-- Every subscriber row contributes exactly one attempt with its own id. -/
lemma attempts_notifyActions (base : String)
    (server : String → Option String → HttpResp)
    (lecturerName : String → Option String) (tomorrow : String)
    (isoWeekNum : Nat) (sendOk : Nat → Bool) (u : NotifUser) :
    attempts (notifyActions base server lecturerName tomorrow isoWeekNum sendOk u) =
      [u.tg_id] := by
  rw [attempts_eq_filterMap]
  by_cases h : sendOk u.tg_id = true
  · simp [notifyActions, h, pickAttempt]
  · simp [notifyActions, h, pickAttempt]

/-- C8: For every notification tick, every matched subscriber is attempted
exactly once and in order — a failing send is caught, recorded against that
subscriber's `tg_id`, and does not abort the processing of the remaining
subscribers of the same tick. -/
theorem notification_tick_isolation (base : String)
    (server : String → Option String → HttpResp)
    (lecturerName : String → Option String) (tomorrow : String)
    (isoWeekNum : Nat) (sendOk : Nat → Bool) (users : List NotifUser) :
    attempts (check_notifications base server lecturerName tomorrow isoWeekNum
        sendOk users) = users.map (·.tg_id) ∧
    ∀ u ∈ users, sendOk u.tg_id = false →
      BotAction.sendFail u.tg_id ∈
        check_notifications base server lecturerName tomorrow isoWeekNum sendOk users := by
  induction users with
  | nil => exact ⟨rfl, fun u hu => absurd hu (List.not_mem_nil u)⟩
  | cons u rest ih =>
    constructor
    · rw [check_notifications, attempts_eq_filterMap, List.filterMap_append,
        ← attempts_eq_filterMap, ← attempts_eq_filterMap,
        attempts_notifyActions, ih.1, List.map_cons]
      rfl
    · intro v hv hfail
      rcases List.mem_cons.mp hv with rfl | hv
      · rw [check_notifications]
        apply List.mem_append.mpr
        left
        simp [notifyActions, hfail]
      · rw [check_notifications]
        exact List.mem_append.mpr (Or.inr (ih.2 v hv hfail))

/-- Witness for C8: two concrete subscribers where the first send fails; the
attempts are still both ids in order, and the failure is recorded for the
first id. -/
theorem notification_tick_isolation_witness :
    attempts (check_notifications "http://asu" (fun _ _ => .transportErr)
        (fun _ => none) "20240102" 1 (fun i => i ≠ 1)
        [⟨1, 2, "G"⟩, ⟨3, 4, "H"⟩]) = [1, 3] ∧
    (⟨1, 2, "G"⟩ : NotifUser) ∈ ([⟨1, 2, "G"⟩, ⟨3, 4, "H"⟩] : List NotifUser) ∧
    BotAction.sendFail 1 ∈ check_notifications "http://asu"
        (fun _ _ => .transportErr) (fun _ => none) "20240102" 1 (fun i => i ≠ 1)
        [⟨1, 2, "G"⟩, ⟨3, 4, "H"⟩] := by
  refine ⟨?_, by decide, ?_⟩
  · exact (notification_tick_isolation "http://asu" (fun _ _ => .transportErr)
      (fun _ => none) "20240102" 1 (fun i => i ≠ 1) [⟨1, 2, "G"⟩, ⟨3, 4, "H"⟩]).1
  · exact (notification_tick_isolation "http://asu" (fun _ _ => .transportErr)
      (fun _ => none) "20240102" 1 (fun i => i ≠ 1) [⟨1, 2, "G"⟩, ⟨3, 4, "H"⟩]).2
      ⟨1, 2, "G"⟩ (by decide) (by decide)

/-- The broadcast loop attempts exactly the users it is given, in order,
regardless of which sends fail. -/
lemma attempts_broadcastGo (text : String) (sendOk : Nat → Bool) (total : Nat)
    (users : List DbUser) (s f : Nat) :
    attempts (broadcastGo text sendOk total users s f).1 = users.map (·.tg_id) := by
  induction users generalizing s f with
  | nil => rfl
  | cons u rest ih =>
    simp only [attempts_eq_filterMap] at ih ⊢
    by_cases h : sendOk u.tg_id = true
    · by_cases h10 : (s + 1) % 10 = 0
      · simp [broadcastGo, h, h10, pickAttempt, ih]
      · simp [broadcastGo, h, h10, pickAttempt, ih]
    · simp [broadcastGo, h, pickAttempt, ih]

/-- C10: The broadcast recipient set is exactly the stored users whose
banned flag is unset, each attempted exactly once and in order; the reported
recipient total counts exactly the non-banned users; and (when ids are
unique) a banned user's id is never attempted. -/
theorem broadcast_skips_banned (allUsers : List DbUser) (text : String)
    (sendOk : Nat → Bool) :
    attempts (process_broadcast allUsers text sendOk).1 =
      (allUsers.filter (fun u => !u.is_banned)).map (·.tg_id) ∧
    (process_broadcast allUsers text sendOk).2.2.2 =
      (allUsers.filter (fun u => !u.is_banned)).length ∧
    ((allUsers.map (·.tg_id)).Nodup → ∀ u ∈ allUsers, u.is_banned = true →
      u.tg_id ∉ attempts (process_broadcast allUsers text sendOk).1) := by
  have hmain : attempts (process_broadcast allUsers text sendOk).1 =
      (allUsers.filter (fun u => !u.is_banned)).map (·.tg_id) := by
    rw [attempts_eq_filterMap]
    simp only [process_broadcast, List.filterMap_cons, List.filterMap_append]
    rw [← attempts_eq_filterMap, attempts_broadcastGo]
    simp [pickAttempt]
  refine ⟨hmain, rfl, ?_⟩
  intro hnd u hu hban hmem
  rw [hmain] at hmem
  obtain ⟨v, hv, hveq⟩ := List.mem_map.mp hmem
  have hvmem := List.mem_filter.mp hv
  have : v = u := List.inj_on_of_nodup_map hnd hvmem.1 hu hveq
  subst this
  rw [hban] at hvmem
  exact absurd hvmem.2 (by decide)

/-- Witness for C10: one banned and two non-banned stored users with unique
ids; the attempts are exactly the two non-banned ids, the reported total is
2, and the banned id 5 is not attempted. -/
theorem broadcast_skips_banned_witness :
    attempts (process_broadcast [⟨1, false⟩, ⟨5, true⟩, ⟨7, false⟩] "hi"
        (fun _ => true)).1 = [1, 7] ∧
    (process_broadcast [⟨1, false⟩, ⟨5, true⟩, ⟨7, false⟩] "hi"
        (fun _ => true)).2.2.2 = 2 ∧
    (([⟨1, false⟩, ⟨5, true⟩, ⟨7, false⟩] : List DbUser).map (·.tg_id)).Nodup ∧
    (⟨5, true⟩ : DbUser) ∈ ([⟨1, false⟩, ⟨5, true⟩, ⟨7, false⟩] : List DbUser) ∧
    (5 : Nat) ∉ attempts (process_broadcast [⟨1, false⟩, ⟨5, true⟩, ⟨7, false⟩]
        "hi" (fun _ => true)).1 := by
  refine ⟨?_, ?_, by decide, by decide, ?_⟩
  · exact (broadcast_skips_banned [⟨1, false⟩, ⟨5, true⟩, ⟨7, false⟩] "hi"
      (fun _ => true)).1
  · exact (broadcast_skips_banned [⟨1, false⟩, ⟨5, true⟩, ⟨7, false⟩] "hi"
      (fun _ => true)).2.1
  · exact (broadcast_skips_banned [⟨1, false⟩, ⟨5, true⟩, ⟨7, false⟩] "hi"
      (fun _ => true)).2.2 (by decide) ⟨5, true⟩ (by decide) (by decide)

/-- C4 counterexample: the claim asserts that every notification-tick and
broadcast delivery is enqueued into the shared delivery queue
(`message_queue`) and that neither path calls the outbound channel
directly.  At the concrete inputs below, a tick with one matched subscriber
and a broadcast with one stored user each produce a direct
`bot.send_message` call and enqueue nothing: both paths bypass the queue
entirely. -/
theorem delivery_queue_bypass_counterexample :
    (check_notifications "http://asu" (fun _ _ => .transportErr) (fun _ => none)
        "20240102" 1 (fun _ => true) [⟨1, 2, "G"⟩]).any isDirectSend = true ∧
    (check_notifications "http://asu" (fun _ _ => .transportErr) (fun _ => none)
        "20240102" 1 (fun _ => true) [⟨1, 2, "G"⟩]).any isEnqueue = false ∧
    ((process_broadcast [⟨1, false⟩] "hi" (fun _ => true)).1.any isDirectSend = true) ∧
    ((process_broadcast [⟨1, false⟩] "hi" (fun _ => true)).1.any isEnqueue = false) := by
  refine ⟨rfl, rfl, rfl, rfl⟩

/-- C4 amended: notification-tick deliveries and broadcast deliveries both
call the outbound channel directly — one direct send (or caught failure) per
matched subscriber resp. non-banned user — and neither path enqueues
anything into the shared delivery queue, which is fed only by the separate
`send_message` helper. -/
theorem deliveries_bypass_queue (base : String)
    (server : String → Option String → HttpResp)
    (lecturerName : String → Option String) (tomorrow : String)
    (isoWeekNum : Nat) (sendOk : Nat → Bool) (users : List NotifUser)
    (allUsers : List DbUser) (text : String) (sendOk2 : Nat → Bool) :
    (∀ a ∈ check_notifications base server lecturerName tomorrow isoWeekNum
        sendOk users, isEnqueue a = false) ∧
    (∀ a ∈ (process_broadcast allUsers text sendOk2).1, isEnqueue a = false) ∧
    (∀ u ∈ users, sendOk u.tg_id = true →
      ∃ m, BotAction.sendDirect u.tg_id m ∈
        check_notifications base server lecturerName tomorrow isoWeekNum sendOk users) := by
  refine ⟨?_, ?_, ?_⟩
  · induction users with
    | nil => intro a ha; exact absurd ha (List.not_mem_nil a)
    | cons u rest ih =>
      intro a ha
      rw [check_notifications] at ha
      rcases List.mem_append.mp ha with ha | ha
      · by_cases h : sendOk u.tg_id = true
        · simp only [notifyActions, h, if_true, List.mem_singleton] at ha
          subst ha; rfl
        · rw [Bool.not_eq_true] at h
          simp only [notifyActions, h, Bool.false_eq_true, if_false,
            List.mem_singleton] at ha
          subst ha; rfl
      · exact ih a ha
  · have hgo : ∀ (us : List DbUser) (s f : Nat),
        ∀ a ∈ (broadcastGo text sendOk2
            ((allUsers.filter (fun u => !u.is_banned)).length) us s f).1,
          isEnqueue a = false := by
      intro us
      induction us with
      | nil => intro s f a ha; exact absurd ha (List.not_mem_nil a)
      | cons u rest ih =>
        intro s f a ha
        by_cases h : sendOk2 u.tg_id = true
        · simp only [broadcastGo, h, if_true] at ha
          rcases List.mem_cons.mp ha with rfl | ha
          · rfl
          · rcases List.mem_append.mp ha with ha | ha
            · by_cases h10 : (s + 1) % 10 = 0
              · rw [if_pos h10] at ha
                rcases List.mem_singleton.mp ha with rfl
                rfl
              · rw [if_neg h10] at ha
                exact absurd ha (List.not_mem_nil a)
            · rcases List.mem_cons.mp ha with rfl | ha
              · rfl
              · exact ih (s + 1) f a ha
        · rw [Bool.not_eq_true] at h
          simp only [broadcastGo, h, Bool.false_eq_true, if_false] at ha
          rcases List.mem_cons.mp ha with rfl | ha
          · rfl
          · exact ih s (f + 1) a ha
    intro a ha
    simp only [process_broadcast] at ha
    rcases List.mem_cons.mp ha with rfl | ha
    · rfl
    · rcases List.mem_append.mp ha with ha | ha
      · exact hgo _ 0 0 a ha
      · rcases List.mem_singleton.mp ha with rfl
        rfl
  · intro u hu hok
    induction users with
    | nil => exact absurd hu (List.not_mem_nil u)
    | cons v rest ih =>
      rw [check_notifications]
      rcases List.mem_cons.mp hu with rfl | hv
      · refine ⟨notifMessage base server lecturerName tomorrow isoWeekNum u,
          List.mem_append.mpr (Or.inl ?_)⟩
        simp [notifyActions, hok]
      · obtain ⟨m, hm⟩ := ih hv
        exact ⟨m, List.mem_append.mpr (Or.inr hm)⟩

/-- Witness for C4's amended statement: at the concrete tick of one
subscriber with a succeeding transport, a direct send to that subscriber is
in the trace. -/
theorem deliveries_bypass_queue_witness :
    (⟨1, 2, "G"⟩ : NotifUser) ∈ ([⟨1, 2, "G"⟩] : List NotifUser) ∧
    ∃ m, BotAction.sendDirect 1 m ∈
      check_notifications "http://asu" (fun _ _ => .transportErr) (fun _ => none)
        "20240102" 1 (fun _ => true) [⟨1, 2, "G"⟩] :=
  ⟨by decide,
    (deliveries_bypass_queue "http://asu" (fun _ _ => .transportErr) (fun _ => none)
      "20240102" 1 (fun _ => true) [⟨1, 2, "G"⟩] [] "" (fun _ => true)).2.2
      ⟨1, 2, "G"⟩ (by decide) rfl⟩

/-- After any call, the call's key is memoized with the returned value. -/
lemma get_cached_schedule_memoizes (fetch : String → String → Option ScheduleData)
    (st : CacheState) (now : Nat) (gid date : String) :
    ((get_cached_schedule fetch st now gid date).state).memo.lookup (gid, date) =
      some (get_cached_schedule fetch st now gid date).value := by
  unfold get_cached_schedule cacheFetchBranch
  rcases hm : st.memo.lookup (gid, date) with _ | v
  · rcases hl : st.last_update.lookup (gid, date) with _ | t
    · simp [hm, hl, List.lookup]
    · by_cases hf : now - t < 300
      · simp [hm, hl, hf, List.lookup]
      · simp [hm, hl, hf, List.lookup]
  · simp [hm]

/-- A call whose key is memoized returns the memoized value and leaves the
state unchanged, running nothing. -/
lemma get_cached_schedule_memo_hit (fetch : String → String → Option ScheduleData)
    (st : CacheState) (now : Nat) (gid date : String)
    (v : Option ScheduleData) (h : st.memo.lookup (gid, date) = some v) :
    get_cached_schedule fetch st now gid date = ⟨v, st, 0⟩ := by
  unfold get_cached_schedule
  simp [h]

/-- Any single call invokes the adapter at most once. -/
lemma get_cached_schedule_calls_le_one (fetch : String → String → Option ScheduleData)
    (st : CacheState) (now : Nat) (gid date : String) :
    (get_cached_schedule fetch st now gid date).apiCalls ≤ 1 := by
  unfold get_cached_schedule cacheFetchBranch
  rcases hm : st.memo.lookup (gid, date) with _ | v
  · rcases hl : st.last_update.lookup (gid, date) with _ | t
    · simp [hm, hl]
    · by_cases hf : now - t < 300
      · simp [hm, hl, hf]
      · simp [hm, hl, hf]
  · simp [hm]

/-- C7: Two `get_cached_schedule` calls with the same `(group_id, date)` key
within the 5-minute TTL invoke the upstream adapter at most once in total;
the second call performs no adapter invocation and returns the first call's
value from the cache. -/
theorem cache_same_key_fetch_once (fetch : String → String → Option ScheduleData)
    (st : CacheState) (now1 now2 : Nat) (gid date : String)
    (h : now2 - now1 < 300) :
    (get_cached_schedule fetch st now1 gid date).apiCalls +
      (get_cached_schedule fetch
        (get_cached_schedule fetch st now1 gid date).state now2 gid date).apiCalls ≤ 1 ∧
    (get_cached_schedule fetch
      (get_cached_schedule fetch st now1 gid date).state now2 gid date).apiCalls = 0 ∧
    (get_cached_schedule fetch
        (get_cached_schedule fetch st now1 gid date).state now2 gid date).value =
      (get_cached_schedule fetch st now1 gid date).value := by
  have hmemo := get_cached_schedule_memoizes fetch st now1 gid date
  have hsecond :
      get_cached_schedule fetch (get_cached_schedule fetch st now1 gid date).state
        now2 gid date =
      ⟨(get_cached_schedule fetch st now1 gid date).value,
        (get_cached_schedule fetch st now1 gid date).state, 0⟩ :=
    get_cached_schedule_memo_hit fetch _ now2 gid date _ hmemo
  refine ⟨?_, ?_, ?_⟩
  · rw [hsecond]
    simpa using get_cached_schedule_calls_le_one fetch st now1 gid date
  · rw [hsecond]
  · rw [hsecond]

/-- Witness for C7 at a concrete fetch oracle, empty initial state, and two
times 100 s apart. -/
theorem cache_same_key_fetch_once_witness :
    (100 : Nat) - 0 < 300 ∧
    ((get_cached_schedule (fun _ _ => some ⟨true, [], none, none⟩) ⟨[], [], []⟩
        0 "123" "20240101").apiCalls +
      (get_cached_schedule (fun _ _ => some ⟨true, [], none, none⟩)
        (get_cached_schedule (fun _ _ => some ⟨true, [], none, none⟩) ⟨[], [], []⟩
          0 "123" "20240101").state 100 "123" "20240101").apiCalls ≤ 1) :=
  ⟨by decide,
    (cache_same_key_fetch_once (fun _ _ => some ⟨true, [], none, none⟩) ⟨[], [], []⟩
      0 100 "123" "20240101" (by decide)).1⟩

/-- A successful comprehension has one result per input value. -/
lemma loadsList_length {α : Type} (loads : String → Except String α) :
    ∀ (vs : List (Option String)) (r : List (Option α)),
      loadsList loads vs = .ok r → r.length = vs.length := by
  intro vs
  induction vs with
  | nil =>
    intro r hr
    cases hr
    rfl
  | cons v? rest ih =>
    intro r hr
    cases v? with
    | none =>
      rcases hrest : loadsList loads rest with e | xs
      · rw [loadsList, hrest] at hr
        cases hr
      · rw [loadsList, hrest] at hr
        cases hr
        simpa using ih xs hrest
    | some v =>
      rcases hl : loads v with e | x
      · rw [loadsList, hl] at hr
        cases hr
      · rcases hrest : loadsList loads rest with e | xs
        · rw [loadsList, hl, hrest] at hr
          cases hr
        · rw [loadsList, hl, hrest] at hr
          cases hr
          simpa using ih xs hrest

/-- C9: Batch cache operations never propagate an error to the caller: when
the pipeline execution (or decoding) fails, `get_many` degrades to a miss —
a list of `None` results of the same length as the key list — and
`set_many` completes without effect, only logging; a successful `get_many`
likewise returns one result per key. -/
theorem redis_batch_degrades_to_miss {α : Type}
    (execGet : List String → Except String (List (Option String)))
    (loads : String → Except String α) (keys : List String)
    (execSet : List (String × String × Nat) → Except String Unit)
    (dumps : α → String) (mapping : List (String × α)) (ttl : Option Nat)
    (hlen : ∀ vs, execGet keys = .ok vs → vs.length = keys.length) :
    (RedisCache.get_many execGet loads keys).length = keys.length ∧
    (∀ e, execGet keys = .error e →
      RedisCache.get_many execGet loads keys = List.replicate keys.length none) ∧
    (∀ e, execSet (mapping.map (fun kv => (kv.1, dumps kv.2, ttl.getD 300))) = .error e →
      RedisCache.set_many execSet dumps mapping ttl =
        some ("Redis error in set_many: " ++ e)) ∧
    (execSet (mapping.map (fun kv => (kv.1, dumps kv.2, ttl.getD 300))) = .ok () →
      RedisCache.set_many execSet dumps mapping ttl = none) := by
  refine ⟨?_, ?_, ?_, ?_⟩
  · unfold RedisCache.get_many
    rcases hE : execGet keys with e | vs
    · simp
    · rcases hL : loadsList loads vs with e | r
      · simp [hL]
      · have h1 := hlen vs hE
        have h2 := loadsList_length loads vs r hL
        simp [hL, h2, h1]
  · intro e hE
    unfold RedisCache.get_many
    rw [hE]
  · intro e hS
    unfold RedisCache.set_many
    rw [hS]
  · intro hS
    unfold RedisCache.set_many
    rw [hS]

/-- Witness for C9: with Redis unreachable (every pipeline execution
raises), a two-key batch get returns `[none, none]` and a batch set returns
only its log line. -/
theorem redis_batch_degrades_to_miss_witness :
    (RedisCache.get_many (fun _ => .error "down") (fun _ => (.ok 0 : Except String Nat))
        ["a", "b"]).length = 2 ∧
    RedisCache.get_many (fun _ => .error "down") (fun _ => (.ok 0 : Except String Nat))
        ["a", "b"] = [none, none] ∧
    RedisCache.set_many (fun _ => .error "down") (fun n : Nat => toString n)
        [("k", 1)] none = some ("Redis error in set_many: " ++ "down") := by
  have h := redis_batch_degrades_to_miss (fun _ => .error "down")
    (fun _ => (.ok 0 : Except String Nat)) ["a", "b"] (fun _ => .error "down")
    (fun n : Nat => toString n) [("k", 1)] none (fun vs hv => by cases hv)
  refine ⟨h.1, ?_, h.2.2.1 "down" rfl⟩
  have h2 := h.2.1 "down" rfl
  simpa using h2

end Asubot
